import Mathlib

/-
Verification development for the FAC preconditioner core of an AMR toolkit.

The repository provides two C++ headers:
  * ibtk/src/solvers/impls/SCPoissonPointRelaxationFACOperator.h
  * src/navier_stokes/INSStaggeredCenteredConvectiveOperator.h
The member-function bodies live outside the provided sources, so the
operations below are shallow models built from the headers' documented
contracts and the accompanying specification.  Grids are modelled as an
integer-indexed index space shared by all levels of the hierarchy, with a
per-level liveness mask; vector data is rational-valued.
-/

namespace IBTK

/-- Number of spatial dimensions (NDIM), fixed for this development. -/
def NDIM : Nat := 2

/-- Modelled from the spec: PoissonSpecifications is a value object holding
the constant damping coefficient C and the constant diffusion coefficient D
of the operator (C I + div D grad). -/
structure PoissonSpecifications where
  cCoef : Rat
  dCoef : Rat
deriving DecidableEq

/-- Modelled from the spec: a Robin boundary-coefficient provider, reduced to
the per-axis constant coefficients (alpha, beta, gamma) of
alpha u + beta du/dn = gamma. -/
structure RobinCoefs where
  alpha : Rat
  beta : Rat
  gamma : Rat
deriving DecidableEq

/-- Modelled from the spec: the shared default boundary-coefficient provider
(d_default_bc_coef, a LocationIndexRobinBcCoefs configured for homogeneous
Dirichlet conditions): alpha = 1, beta = 0, gamma = 0, i.e. u = 0. -/
def homogeneousDirichletBcCoef : RobinCoefs :=
  { alpha := 1, beta := 0, gamma := 0 }

/-- The smoother types accepted by setSmootherChoice. -/
inductive SmootherChoice where
  | additive
  | multiplicative
deriving DecidableEq

/-- The coarse-level solver strategies accepted by
setCoarsestLevelSolverChoice. -/
inductive CoarseSolverChoice where
  | block_jacobi
  | hypre
  | petsc
deriving DecidableEq

/-- Fatal errors reported by the operator (SAMRAI TBOX_ERROR aborts). -/
inductive IBTKError where
  | fatalError (msg : String)
deriving DecidableEq

/-- Modelled from the spec: the patch hierarchy, as a number of levels and a
per-level liveness mask over a common integer index space (a cell of a coarse
level is covered by the finer level when the finer level is live there). -/
structure GridHierarchy where
  numLevels : Nat
  live : Nat → Int → Bool

/-- A SAMRAIVectorReal: per-level, per-cell data together with the data depth
and the identity of the hierarchy the vector lives on. -/
structure SAMRAIVector where
  depth : Nat
  hier_id : Nat
  data : Nat → Int → Rat

/-- Modelled from the spec: the internal state of an external bottom-solver
backend instance (SCPoissonHypreLevelSolver / SCPoissonPETScLevelSolver):
its convergence tolerance, its iteration cap, the residual-norm trajectory
its iteration would produce on the current problem, and the approximate
solution it returns. -/
structure BackendSolver where
  tol : Rat
  maxIterations : Nat
  trajectory : Nat → Rat
  result : Int → Rat

/-- Modelled from the spec: the state of an SCPoissonPointRelaxationFACOperator,
mirroring the data members declared in the header. -/
structure FACOperatorState where
  is_initialized : Bool
  d_depth : Nat
  d_hier_id : Nat
  d_hierarchy : GridHierarchy
  d_coarsest_ln : Nat
  d_finest_ln : Nat
  d_poisson_spec : PoissonSpecifications
  d_bc_coefs : Fin NDIM → RobinCoefs
  d_smoother_choice : SmootherChoice
  d_coarse_solver_choice : CoarseSolverChoice
  d_coarse_solver_tolerance : Rat
  d_coarse_solver_max_iterations : Nat
  d_using_hypre : Bool
  d_hypre_solver : Option BackendSolver
  d_using_petsc : Bool
  d_petsc_solver : Option BackendSolver
  d_patch_bc_box_overlap : Nat → Int → Bool
  d_backend_trajectory : Nat → Rat
  d_backend_result : Int → Rat

/-- Modelled from the spec: the freshly constructed operator.  The header
documents the defaults: the operator solves -laplacian u = f (C = 0, D = -1)
subject to homogeneous Dirichlet boundary conditions, with
smoother_choice = "additive", coarse_solver_choice = "block_jacobi",
coarse_solver_tolerance = 1.0e-6 and coarse_solver_max_iterations = 10. -/
def constructorDefaults : FACOperatorState :=
  { is_initialized := false
  , d_depth := 0
  , d_hier_id := 0
  , d_hierarchy := { numLevels := 0, live := fun _ _ => false }
  , d_coarsest_ln := 0
  , d_finest_ln := 0
  , d_poisson_spec := { cCoef := 0, dCoef := -1 }
  , d_bc_coefs := fun _ => homogeneousDirichletBcCoef
  , d_smoother_choice := SmootherChoice.additive
  , d_coarse_solver_choice := CoarseSolverChoice.block_jacobi
  , d_coarse_solver_tolerance := 1 / 1000000
  , d_coarse_solver_max_iterations := 10
  , d_using_hypre := false
  , d_hypre_solver := none
  , d_using_petsc := false
  , d_petsc_solver := none
  , d_patch_bc_box_overlap := fun _ _ => false
  , d_backend_trajectory := fun _ => 0
  , d_backend_result := fun _ => 0 }

/-- The side-centered second-order discrete operator
L u = C u + D laplacian u at one cell of one level. -/
def applyL (spec : PoissonSpecifications) (u : Int → Rat) (c : Int) : Rat :=
  spec.cCoef * u c + spec.dCoef * (u (c + 1) - 2 * u c + u (c - 1))

/-- Replace the data of one level of a per-level field. -/
def updLevel (v : Nat → Int → Rat) (ln : Nat) (f : Int → Rat) :
    Nat → Int → Rat :=
  fun l => if l = ln then f else v l

/-- setPoissonSpecifications: record the Poisson specifications. -/
def setPoissonSpecifications (st : FACOperatorState)
    (spec : PoissonSpecifications) : FACOperatorState :=
  { st with d_poisson_spec := spec }

/-- setPhysicalBcCoefs: any absent (NULL) entry resolves to the shared
default homogeneous-Dirichlet provider d_default_bc_coef. -/
def setPhysicalBcCoefs (st : FACOperatorState)
    (bc_coefs : Fin NDIM → Option RobinCoefs) : FACOperatorState :=
  { st with d_bc_coefs := fun a => (bc_coefs a).getD homogeneousDirichletBcCoef }

/-- setSmootherChoice: accepts exactly "additive" and "multiplicative";
any other string is a fatal configuration error. -/
def setSmootherChoice (st : FACOperatorState) (s : String) :
    Except IBTKError FACOperatorState :=
  if s = "additive" then
    Except.ok { st with d_smoother_choice := SmootherChoice.additive }
  else if s = "multiplicative" then
    Except.ok { st with d_smoother_choice := SmootherChoice.multiplicative }
  else
    Except.error (IBTKError.fatalError "unknown smoother choice")

/-- Modelled from the spec: construct a backend bottom-solver instance from
the operator's configuration (initializeHypreLevelSolver /
initializePETScLevelSolver bodies are outside the provided sources). -/
def mkBackendSolver (st : FACOperatorState) : BackendSolver :=
  { tol := st.d_coarse_solver_tolerance
  , maxIterations := st.d_coarse_solver_max_iterations
  , trajectory := st.d_backend_trajectory
  , result := st.d_backend_result }

/-- Modelled from the spec: record a coarse-solver choice.  The selector
flags d_using_hypre / d_using_petsc follow the choice, and the bottom-solver
instances are reconstructed atomically so the live variant always matches
the choice. -/
def applyCoarseChoice (st : FACOperatorState) (choice : CoarseSolverChoice) :
    FACOperatorState :=
  { st with
    d_coarse_solver_choice := choice
  , d_using_hypre := decide (choice = CoarseSolverChoice.hypre)
  , d_using_petsc := decide (choice = CoarseSolverChoice.petsc)
  , d_hypre_solver :=
      if st.is_initialized = true ∧ choice = CoarseSolverChoice.hypre then
        some (mkBackendSolver st)
      else none
  , d_petsc_solver :=
      if st.is_initialized = true ∧ choice = CoarseSolverChoice.petsc then
        some (mkBackendSolver st)
      else none }

/-- setCoarsestLevelSolverChoice: accepts exactly "block_jacobi", "hypre"
and "petsc"; any other string is a fatal configuration error. -/
def setCoarsestLevelSolverChoice (st : FACOperatorState) (s : String) :
    Except IBTKError FACOperatorState :=
  if s = "block_jacobi" then
    Except.ok (applyCoarseChoice st CoarseSolverChoice.block_jacobi)
  else if s = "hypre" then
    Except.ok (applyCoarseChoice st CoarseSolverChoice.hypre)
  else if s = "petsc" then
    Except.ok (applyCoarseChoice st CoarseSolverChoice.petsc)
  else
    Except.error (IBTKError.fatalError "unknown coarse level solver choice")

/-- Modelled from the spec: initializeOperatorStateSpecialized.  Records the
depth and hierarchy of the templates, builds the patch overlap index spanning
exactly the level range, and instantiates the configured bottom solver. -/
def initializeOperatorState (st : FACOperatorState) (hier : GridHierarchy)
    (solution _rhs : SAMRAIVector) (lo hi : Nat) : FACOperatorState :=
  { st with
    is_initialized := true
  , d_hierarchy := hier
  , d_depth := solution.depth
  , d_hier_id := solution.hier_id
  , d_coarsest_ln := lo
  , d_finest_ln := hi
  , d_patch_bc_box_overlap :=
      fun ln c => decide (lo ≤ ln) && decide (ln ≤ hi) && hier.live ln c
  , d_hypre_solver :=
      if st.d_using_hypre = true then some (mkBackendSolver st) else none
  , d_petsc_solver :=
      if st.d_using_petsc = true then some (mkBackendSolver st) else none }

/-- Modelled from the spec: deallocateOperatorStateSpecialized.  Tears down
the patch overlap index and the bottom-solver instances; a no-op when the
operator is not initialized. -/
def deallocateOperatorState (st : FACOperatorState) : FACOperatorState :=
  if st.is_initialized = true then
    { st with
      is_initialized := false
    , d_depth := 0
    , d_hypre_solver := none
    , d_petsc_solver := none
    , d_patch_bc_box_overlap := fun _ _ => false }
  else st

/-- Precondition shared by the vector-consuming operations: the vector's
depth equals the depth recorded at initialization, and the vector lives on
the initialized hierarchy. -/
def vectorFits (st : FACOperatorState) (v : SAMRAIVector) : Bool :=
  decide (v.depth = st.d_depth) && decide (v.hier_id = st.d_hier_id)

/-- The fatal error raised on a depth or hierarchy mismatch. -/
def depthMismatchError : IBTKError :=
  IBTKError.fatalError "vector depth or hierarchy mismatch"

/-- One Gauss-Seidel-style relaxation update of the error at the cells
selected by the overlap index:
(C - 2 D) e_c = r_c - D (e_(c+1) + e_(c-1)). -/
def gaussSeidelSweep (spec : PoissonSpecifications) (live : Int → Bool)
    (residual : Int → Rat) (e : Int → Rat) : Int → Rat :=
  fun c =>
    if live c = true then
      (residual c - spec.dCoef * (e (c + 1) + e (c - 1))) /
        (spec.cCoef - 2 * spec.dCoef)
    else e c

/-- Iterated relaxation sweeps. -/
def smoothSweeps (spec : PoissonSpecifications) (live : Int → Bool)
    (residual : Int → Rat) : Nat → (Int → Rat) → Int → Rat
  | 0, e => e
  | n + 1, e => smoothSweeps spec live residual n
      (gaussSeidelSweep spec live residual e)

/-- Modelled from the spec: the body of smoothError once the vector
preconditions hold.  Performs num_sweeps in-place relaxations of the error
at the given level; the residual and the operator state are read, never
written. -/
def smoothErrorBody (st : FACOperatorState) (error residual : SAMRAIVector)
    (level_num : Nat) (num_sweeps : Nat) :
    FACOperatorState × SAMRAIVector × SAMRAIVector :=
  (st,
   { error with
     data := updLevel error.data level_num
       (smoothSweeps st.d_poisson_spec (st.d_patch_bc_box_overlap level_num)
         (residual.data level_num) num_sweeps (error.data level_num)) },
   residual)

/-- smoothError: checks the vector preconditions, then relaxes the error. -/
def smoothError (st : FACOperatorState) (error residual : SAMRAIVector)
    (level_num : Nat) (num_sweeps : Nat)
    ( _performing_pre_sweeps _performing_post_sweeps : Bool) :
    Except IBTKError (FACOperatorState × SAMRAIVector × SAMRAIVector) :=
  if vectorFits st error && vectorFits st residual then
    Except.ok (smoothErrorBody st error residual level_num num_sweeps)
  else
    Except.error depthMismatchError

/-- A coarse cell is covered when the next finer level inside the range is
live there; the finer level's value then dominates in the composite mesh. -/
def coveredByFiner (H : GridHierarchy) (hi ln : Nat) (c : Int) : Prop :=
  ln < hi ∧ H.live (ln + 1) c = true

instance (H : GridHierarchy) (hi ln : Nat) (c : Int) :
    Decidable (coveredByFiner H hi ln c) := by
  unfold coveredByFiner; infer_instance

/-- Modelled from the spec: the level-by-level loop of the composite residual
computation.  Processes `n` levels starting at `lo`: on each level it writes
residual = rhs - L solution at the live cells, excluding coarse cells covered
by a finer level of the range so the finer level's value dominates. -/
def computeResidualLevels (H : GridHierarchy) (spec : PoissonSpecifications)
    (sol rhs : Nat → Int → Rat) (hi : Nat) :
    Nat → Nat → (Nat → Int → Rat) → Nat → Int → Rat
  | _, 0, r => r
  | lo, n + 1, r =>
      computeResidualLevels H spec sol rhs hi (lo + 1) n
        (updLevel r lo (fun c =>
          if H.live lo c = true ∧ ¬ coveredByFiner H hi lo c then
            rhs lo c - applyL spec (sol lo) c
          else r lo c))

/-- Modelled from the spec: the composite residual data over the level range
[lo, hi]. -/
def computeResidualData (H : GridHierarchy) (spec : PoissonSpecifications)
    (res sol rhs : Nat → Int → Rat) (lo hi : Nat) : Nat → Int → Rat :=
  computeResidualLevels H spec sol rhs hi lo (hi + 1 - lo) res

/-- The body of computeResidual once the vector preconditions hold. -/
def computeResidualBody (st : FACOperatorState)
    (residual solution rhs : SAMRAIVector) (lo hi : Nat) :
    FACOperatorState × SAMRAIVector :=
  (st,
   { residual with
     data := computeResidualData st.d_hierarchy st.d_poisson_spec
       residual.data solution.data rhs.data lo hi })

/-- computeResidual: checks the vector preconditions, then computes the
composite-grid residual on the level range. -/
def computeResidual (st : FACOperatorState)
    (residual solution rhs : SAMRAIVector) (lo hi : Nat) :
    Except IBTKError (FACOperatorState × SAMRAIVector) :=
  if vectorFits st residual && vectorFits st solution && vectorFits st rhs then
    Except.ok (computeResidualBody st residual solution rhs lo hi)
  else
    Except.error depthMismatchError

/-- Whether the backend's iteration reaches its tolerance within `n`
iterations: true when some residual norm among iterations 0..n is below the
tolerance. -/
def backendConverges (tol : Rat) (traj : Nat → Rat) : Nat → Bool
  | 0 => decide (traj 0 ≤ tol)
  | n + 1 => backendConverges tol traj n || decide (traj (n + 1) ≤ tol)

/-- Modelled from the spec: the patch-local block-Jacobi solve, which treats
each cell's diagonal independently, ignoring inter-patch coupling. -/
def blockJacobiSolve (spec : PoissonSpecifications) (live : Int → Bool)
    (residual : Int → Rat) (e : Int → Rat) : Int → Rat :=
  fun c =>
    if live c = true then residual c / (spec.cCoef - 2 * spec.dCoef)
    else e c

/-- Modelled from the spec: the body of solveCoarsestLevel once the vector
preconditions hold.  Dispatches on the configured bottom solver: a delegated
backend returns whether it reports convergence within its tolerance and
iteration cap; block-Jacobi performs the local solve and reports success. -/
def solveCoarsestLevelBody (st : FACOperatorState)
    (error residual : SAMRAIVector) (coarsest_ln : Nat) :
    Except IBTKError (Bool × FACOperatorState × SAMRAIVector) :=
  if st.d_using_hypre = true then
    match st.d_hypre_solver with
    | some b =>
        Except.ok
          (backendConverges b.tol b.trajectory b.maxIterations, st,
           { error with data := updLevel error.data coarsest_ln b.result })
    | none => Except.error (IBTKError.fatalError "hypre solver not initialized")
  else if st.d_using_petsc = true then
    match st.d_petsc_solver with
    | some b =>
        Except.ok
          (backendConverges b.tol b.trajectory b.maxIterations, st,
           { error with data := updLevel error.data coarsest_ln b.result })
    | none => Except.error (IBTKError.fatalError "petsc solver not initialized")
  else
    Except.ok
      (true, st,
       { error with
         data := updLevel error.data coarsest_ln
           (blockJacobiSolve st.d_poisson_spec
             (st.d_patch_bc_box_overlap coarsest_ln)
             (residual.data coarsest_ln) (error.data coarsest_ln)) })

/-- solveCoarsestLevel: checks the vector preconditions, then solves the
residual equation on the coarsest level via the configured bottom solver. -/
def solveCoarsestLevel (st : FACOperatorState)
    (error residual : SAMRAIVector) (coarsest_ln : Nat) :
    Except IBTKError (Bool × FACOperatorState × SAMRAIVector) :=
  if vectorFits st error && vectorFits st residual then
    solveCoarsestLevelBody st error residual coarsest_ln
  else
    Except.error depthMismatchError

/-- The bottom-solver variant selected by the current flags. -/
def liveBottomVariant (st : FACOperatorState) : CoarseSolverChoice :=
  if st.d_using_hypre = true then CoarseSolverChoice.hypre
  else if st.d_using_petsc = true then CoarseSolverChoice.petsc
  else CoarseSolverChoice.block_jacobi

/-- The exactly-one-bottom-solver invariant: the selector flags agree with
the coarse-solver choice (so exactly one variant is live, and it is the one
the choice names), the hypre and petsc flags are never both set, a backend
instance exists only for the selected backend of an initialized operator,
and the two backend instances are never both live. -/
def bottomSolverInvariant (st : FACOperatorState) : Prop :=
  (st.d_using_hypre = true ↔
      st.d_coarse_solver_choice = CoarseSolverChoice.hypre)
  ∧ (st.d_using_petsc = true ↔
      st.d_coarse_solver_choice = CoarseSolverChoice.petsc)
  ∧ ¬(st.d_using_hypre = true ∧ st.d_using_petsc = true)
  ∧ liveBottomVariant st = st.d_coarse_solver_choice
  ∧ (∀ b, st.d_hypre_solver = some b →
      st.d_using_hypre = true ∧ st.is_initialized = true)
  ∧ (∀ b, st.d_petsc_solver = some b →
      st.d_using_petsc = true ∧ st.is_initialized = true)
  ∧ ¬(st.d_hypre_solver ≠ none ∧ st.d_petsc_solver ≠ none)

/-- The operator states reachable through the public operation set, starting
from a freshly constructed operator. -/
inductive Reachable : FACOperatorState → Prop where
  | construct : Reachable constructorDefaults
  | setSpec {s : FACOperatorState} (spec : PoissonSpecifications) :
      Reachable s → Reachable (setPoissonSpecifications s spec)
  | setBc {s : FACOperatorState} (bc : Fin NDIM → Option RobinCoefs) :
      Reachable s → Reachable (setPhysicalBcCoefs s bc)
  | setSmoother {s s2 : FACOperatorState} (str : String) :
      Reachable s → setSmootherChoice s str = Except.ok s2 → Reachable s2
  | setCoarse {s s2 : FACOperatorState} (str : String) :
      Reachable s → setCoarsestLevelSolverChoice s str = Except.ok s2 →
      Reachable s2
  | init {s : FACOperatorState} (hier : GridHierarchy)
      (solution rhs : SAMRAIVector) (lo hi : Nat) :
      Reachable s → Reachable (initializeOperatorState s hier solution rhs lo hi)
  | dealloc {s : FACOperatorState} :
      Reachable s → Reachable (deallocateOperatorState s)

end IBTK

namespace IBAMR

/-- The differencing forms of the convective operator. -/
inductive ConvectiveDifferencingType where
  | ADVECTIVE
  | CONSERVATIVE
  | SKEW_SYMMETRIC
deriving DecidableEq

/-- The structural description of a SAMRAIVectorReal as seen by the
convective operator: its hierarchy identity, level range and depth. -/
structure VectorTemplate where
  hier_id : Nat
  coarsest_ln : Nat
  finest_ln : Nat
  depth : Nat
deriving DecidableEq

/-- Modelled from the spec: the state of an
INSStaggeredCenteredConvectiveOperator, mirroring the data members declared
in the header (initialization flag, fixed differencing form, hierarchy
configuration, refine schedules, scratch data). -/
structure ConvOpState where
  d_is_initialized : Bool
  d_difference_form : ConvectiveDifferencingType
  d_hier_id : Option Nat
  d_coarsest_ln : Nat
  d_finest_ln : Nat
  d_refine_scheds : List Nat
  d_U_scratch_allocated : Bool
deriving DecidableEq

/-- The class constructor: uninitialized, with the given differencing form. -/
def mkConvectiveOperator (form : ConvectiveDifferencingType) : ConvOpState :=
  { d_is_initialized := false
  , d_difference_form := form
  , d_hier_id := none
  , d_coarsest_ln := 0
  , d_finest_ln := 0
  , d_refine_scheds := []
  , d_U_scratch_allocated := false }

/-- Modelled from the spec: deallocateOperatorState removes all hierarchy
dependent data allocated by initializeOperatorState; it is safe to call when
the state is already deallocated, in which case it does nothing. -/
def deallocateConvOpState (st : ConvOpState) : ConvOpState :=
  if st.d_is_initialized = true then
    { st with
      d_is_initialized := false
    , d_hier_id := none
    , d_coarsest_ln := 0
    , d_finest_ln := 0
    , d_refine_scheds := []
    , d_U_scratch_allocated := false }
  else st

/-- Modelled from the spec: initializeOperatorState records the hierarchy
configuration of the input vector, builds one refine schedule per level and
allocates the scratch data.  Every hierarchy-dependent member is overwritten,
so re-initializing behaves as a deallocation followed by initialization. -/
def initializeConvOpState (st : ConvOpState) (inVec _outVec : VectorTemplate) :
    ConvOpState :=
  { st with
    d_is_initialized := true
  , d_hier_id := some inVec.hier_id
  , d_coarsest_ln := inVec.coarsest_ln
  , d_finest_ln := inVec.finest_ln
  , d_refine_scheds := List.range (inVec.finest_ln + 1)
  , d_U_scratch_allocated := true }

/-- The centered convective differencing N = u du/dx at one cell:
N_c = u_c (u_(c+1) - u_(c-1)) / 2. -/
def convect (u : Int → Rat) (c : Int) : Rat :=
  u c * (u (c + 1) - u (c - 1)) / 2

/-- Write one cell of one buffer of a buffer store. -/
def writeCell (m : Nat → Int → Rat) (b : Nat) (c : Int) (v : Rat) :
    Nat → Int → Rat :=
  fun b2 c2 => if b2 = b ∧ c2 = c then v else m b2 c2

/-- Modelled from the spec: the cell loop of applyConvectiveOperator, writing
the convective differencing of buffer x into buffer y cell by cell.  Each
write goes through the shared buffer store, so writes to y are visible to
later reads when x and y alias. -/
def applyLoop (x y : Nat) : List Int → (Nat → Int → Rat) → Nat → Int → Rat
  | [], m => m
  | c :: cs, m => applyLoop x y cs (writeCell m y c (convect (m x) c))

/-- Modelled from the spec: apply computes y = F[x].  The documented
conditions require x and y to have the same hierarchy and the same
structure and depth; distinctness of x and y is the caller's obligation and
is not checked. -/
def applyConvectiveOperator (info : Nat → VectorTemplate)
    (m : Nat → Int → Rat) (x y : Nat) (cells : List Int) :
    Except String (Nat → Int → Rat) :=
  if info x = info y then Except.ok (applyLoop x y cells m)
  else Except.error "vectors x and y must have the same hierarchy and structure"

end IBAMR

/-- C10: a freshly constructed SCPoissonPointRelaxationFACOperator, before
any call to setPoissonSpecifications or setPhysicalBcCoefs, applies the
operator -laplacian (C = 0, D = -1) and uses the homogeneous-Dirichlet
default boundary-coefficient provider on every axis. -/
theorem C10_default_configuration :
    (∀ (u : Int → Rat) (c : Int),
      IBTK.applyL IBTK.constructorDefaults.d_poisson_spec u c
        = -(u (c + 1) - 2 * u c + u (c - 1)))
    ∧ (∀ a : Fin IBTK.NDIM,
      IBTK.constructorDefaults.d_bc_coefs a = IBTK.homogeneousDirichletBcCoef) := by
  constructor
  · intro u c
    show (0 : Rat) * u c + (-1 : Rat) * (u (c + 1) - 2 * u c + u (c - 1)) = _
    ring
  · intro a
    rfl

/-- C6: setSmootherChoice accepts exactly "additive" and "multiplicative",
setCoarsestLevelSolverChoice accepts exactly "block_jacobi", "hypre" and
"petsc", and any other string is a fatal configuration error at setup. -/
theorem C6_configuration_choice_strings (st : IBTK.FACOperatorState) (s : String) :
    ((∃ st2, IBTK.setSmootherChoice st s = Except.ok st2) ↔
      (s = "additive" ∨ s = "multiplicative"))
    ∧ ((∃ st2, IBTK.setCoarsestLevelSolverChoice st s = Except.ok st2) ↔
      (s = "block_jacobi" ∨ s = "hypre" ∨ s = "petsc"))
    ∧ (¬(s = "additive" ∨ s = "multiplicative") →
      IBTK.setSmootherChoice st s
        = Except.error (IBTK.IBTKError.fatalError "unknown smoother choice"))
    ∧ (¬(s = "block_jacobi" ∨ s = "hypre" ∨ s = "petsc") →
      IBTK.setCoarsestLevelSolverChoice st s
        = Except.error (IBTK.IBTKError.fatalError "unknown coarse level solver choice")) := by
  unfold IBTK.setSmootherChoice IBTK.setCoarsestLevelSolverChoice
  refine ⟨?_, ?_, ?_, ?_⟩ <;> split_ifs <;> simp_all

/-- Witness for C6 at concrete inputs: the string "gauss_seidel" is rejected
by both setters with a fatal error, while "multiplicative" is accepted. -/
theorem C6_configuration_choice_strings_witness :
    IBTK.setSmootherChoice IBTK.constructorDefaults "gauss_seidel"
      = Except.error (IBTK.IBTKError.fatalError "unknown smoother choice")
    ∧ IBTK.setCoarsestLevelSolverChoice IBTK.constructorDefaults "gauss_seidel"
      = Except.error (IBTK.IBTKError.fatalError "unknown coarse level solver choice")
    ∧ ((∃ st2, IBTK.setSmootherChoice IBTK.constructorDefaults "multiplicative"
        = Except.ok st2) ↔
      ("multiplicative" = "additive" ∨ "multiplicative" = "multiplicative")) :=
  ⟨(C6_configuration_choice_strings IBTK.constructorDefaults "gauss_seidel").2.2.1
      (by decide),
   (C6_configuration_choice_strings IBTK.constructorDefaults "gauss_seidel").2.2.2
      (by decide),
   (C6_configuration_choice_strings IBTK.constructorDefaults "multiplicative").1⟩

/-- C3: a NULL boundary-coefficient entry for an axis resolves to the
homogeneous-Dirichlet default provider: the configured state is the very
same as with an explicit homogeneous-Dirichlet provider for that axis, and
hence every subsequent smoothing, residual and coarse-solve operation
produces identical results. -/
theorem C3_absent_bc_coefs_default (st : IBTK.FACOperatorState)
    (bc : Fin IBTK.NDIM → Option IBTK.RobinCoefs) (a : Fin IBTK.NDIM) :
    IBTK.setPhysicalBcCoefs st (Function.update bc a none)
      = IBTK.setPhysicalBcCoefs st
          (Function.update bc a (some IBTK.homogeneousDirichletBcCoef))
    ∧ (∀ e r ln n pre post,
      IBTK.smoothError (IBTK.setPhysicalBcCoefs st (Function.update bc a none))
          e r ln n pre post
        = IBTK.smoothError (IBTK.setPhysicalBcCoefs st
            (Function.update bc a (some IBTK.homogeneousDirichletBcCoef)))
          e r ln n pre post)
    ∧ (∀ res sol rhs lo hi,
      IBTK.computeResidual
          (IBTK.setPhysicalBcCoefs st (Function.update bc a none)) res sol rhs lo hi
        = IBTK.computeResidual (IBTK.setPhysicalBcCoefs st
            (Function.update bc a (some IBTK.homogeneousDirichletBcCoef)))
          res sol rhs lo hi)
    ∧ (∀ e r ln,
      IBTK.solveCoarsestLevel
          (IBTK.setPhysicalBcCoefs st (Function.update bc a none)) e r ln
        = IBTK.solveCoarsestLevel (IBTK.setPhysicalBcCoefs st
            (Function.update bc a (some IBTK.homogeneousDirichletBcCoef)))
          e r ln) := by
  have h : IBTK.setPhysicalBcCoefs st (Function.update bc a none)
      = IBTK.setPhysicalBcCoefs st
          (Function.update bc a (some IBTK.homogeneousDirichletBcCoef)) := by
    unfold IBTK.setPhysicalBcCoefs
    congr 1
    funext x
    by_cases hx : x = a
    · subst hx; simp
    · simp [Function.update, hx]
  refine ⟨h, ?_, ?_, ?_⟩
  · intro e r ln n pre post; rw [h]
  · intro res sol rhs lo hi; rw [h]
  · intro e r ln; rw [h]

/-- C4: on the convective operator, initializing while already initialized
is not an error and equals a deallocation followed by initialization, and
deallocating while uninitialized is a no-op. -/
theorem C4_conv_lifecycle_idempotent (st : IBAMR.ConvOpState)
    (inv outv : IBAMR.VectorTemplate) :
    (st.d_is_initialized = true →
      IBAMR.initializeConvOpState st inv outv
        = IBAMR.initializeConvOpState (IBAMR.deallocateConvOpState st) inv outv)
    ∧ (st.d_is_initialized = false →
      IBAMR.deallocateConvOpState st = st) := by
  constructor
  · intro h
    unfold IBAMR.initializeConvOpState IBAMR.deallocateConvOpState
    simp [h]
  · intro h
    unfold IBAMR.deallocateConvOpState
    simp [h]

/-- Witness for C4 at concrete states: an initialized operator re-initialized
in place equals deallocate-then-initialize, and deallocating a freshly
constructed operator leaves it unchanged. -/
theorem C4_conv_lifecycle_idempotent_witness :
    (IBAMR.initializeConvOpState
        (IBAMR.initializeConvOpState
          (IBAMR.mkConvectiveOperator IBAMR.ConvectiveDifferencingType.ADVECTIVE)
          { hier_id := 3, coarsest_ln := 0, finest_ln := 2, depth := 1 }
          { hier_id := 3, coarsest_ln := 0, finest_ln := 2, depth := 1 })
        { hier_id := 5, coarsest_ln := 0, finest_ln := 1, depth := 1 }
        { hier_id := 5, coarsest_ln := 0, finest_ln := 1, depth := 1 }
      = IBAMR.initializeConvOpState
        (IBAMR.deallocateConvOpState
          (IBAMR.initializeConvOpState
            (IBAMR.mkConvectiveOperator IBAMR.ConvectiveDifferencingType.ADVECTIVE)
            { hier_id := 3, coarsest_ln := 0, finest_ln := 2, depth := 1 }
            { hier_id := 3, coarsest_ln := 0, finest_ln := 2, depth := 1 }))
        { hier_id := 5, coarsest_ln := 0, finest_ln := 1, depth := 1 }
        { hier_id := 5, coarsest_ln := 0, finest_ln := 1, depth := 1 })
    ∧ (IBAMR.deallocateConvOpState
        (IBAMR.mkConvectiveOperator IBAMR.ConvectiveDifferencingType.ADVECTIVE)
      = IBAMR.mkConvectiveOperator IBAMR.ConvectiveDifferencingType.ADVECTIVE) :=
  ⟨(C4_conv_lifecycle_idempotent
      (IBAMR.initializeConvOpState
        (IBAMR.mkConvectiveOperator IBAMR.ConvectiveDifferencingType.ADVECTIVE)
        { hier_id := 3, coarsest_ln := 0, finest_ln := 2, depth := 1 }
        { hier_id := 3, coarsest_ln := 0, finest_ln := 2, depth := 1 })
      { hier_id := 5, coarsest_ln := 0, finest_ln := 1, depth := 1 }
      { hier_id := 5, coarsest_ln := 0, finest_ln := 1, depth := 1 }).1 rfl,
   (C4_conv_lifecycle_idempotent
      (IBAMR.mkConvectiveOperator IBAMR.ConvectiveDifferencingType.ADVECTIVE)
      { hier_id := 5, coarsest_ln := 0, finest_ln := 1, depth := 1 }
      { hier_id := 5, coarsest_ln := 0, finest_ln := 1, depth := 1 }).2 rfl⟩

/-- C5: smoothError mutates only the error vector: the residual vector and
the whole operator state (Poisson specifications, boundary-coefficient set,
patch overlap index, bottom-solver handle included) are unchanged. -/
theorem C5_smoothError_frame (st : IBTK.FACOperatorState)
    (e r : IBTK.SAMRAIVector) (ln n : Nat) (pre post : Bool)
    (he : IBTK.vectorFits st e = true) (hr : IBTK.vectorFits st r = true) :
    ∃ st2 e2 r2,
      IBTK.smoothError st e r ln n pre post = Except.ok (st2, e2, r2)
      ∧ r2 = r
      ∧ st2 = st
      ∧ st2.d_poisson_spec = st.d_poisson_spec
      ∧ st2.d_bc_coefs = st.d_bc_coefs
      ∧ st2.d_patch_bc_box_overlap = st.d_patch_bc_box_overlap
      ∧ st2.d_hypre_solver = st.d_hypre_solver
      ∧ st2.d_petsc_solver = st.d_petsc_solver := by
  refine ⟨st, (IBTK.smoothErrorBody st e r ln n).2.1, r, ?_, rfl, rfl,
    rfl, rfl, rfl, rfl, rfl⟩
  unfold IBTK.smoothError
  rw [he, hr]
  rfl

/-- Witness for C5 at concrete inputs: smoothing one sweep on a fitting
vector pair leaves the residual and the operator state unchanged. -/
theorem C5_smoothError_frame_witness :
    ∃ st2 e2 r2,
      IBTK.smoothError IBTK.constructorDefaults
          { depth := 0, hier_id := 0, data := fun _ _ => 1 }
          { depth := 0, hier_id := 0, data := fun _ _ => 2 } 0 1 true false
        = Except.ok (st2, e2, r2)
      ∧ r2 = { depth := 0, hier_id := 0, data := fun _ _ => 2 }
      ∧ st2 = IBTK.constructorDefaults
      ∧ st2.d_poisson_spec = IBTK.constructorDefaults.d_poisson_spec
      ∧ st2.d_bc_coefs = IBTK.constructorDefaults.d_bc_coefs
      ∧ st2.d_patch_bc_box_overlap = IBTK.constructorDefaults.d_patch_bc_box_overlap
      ∧ st2.d_hypre_solver = IBTK.constructorDefaults.d_hypre_solver
      ∧ st2.d_petsc_solver = IBTK.constructorDefaults.d_petsc_solver :=
  C5_smoothError_frame IBTK.constructorDefaults
    { depth := 0, hier_id := 0, data := fun _ _ => 1 }
    { depth := 0, hier_id := 0, data := fun _ _ => 2 } 0 1 true false rfl rfl

/-- C7: every vector passed to smoothError, computeResidual or
solveCoarsestLevel must match the depth recorded at initialization and live
on the initialized hierarchy; a mismatch is a fatal precondition violation,
and under the matching preconditions the mismatch branch is unreachable and
each operation runs its body. -/
theorem C7_vector_depth_precondition (st : IBTK.FACOperatorState)
    (e r res sol rhs : IBTK.SAMRAIVector) (ln n lo hi : Nat) (pre post : Bool) :
    ((IBTK.vectorFits st e = true ∧ IBTK.vectorFits st r = true) →
      IBTK.smoothError st e r ln n pre post
          = Except.ok (IBTK.smoothErrorBody st e r ln n)
        ∧ IBTK.solveCoarsestLevel st e r ln
          = IBTK.solveCoarsestLevelBody st e r ln)
    ∧ (¬(IBTK.vectorFits st e = true ∧ IBTK.vectorFits st r = true) →
      IBTK.smoothError st e r ln n pre post
          = Except.error IBTK.depthMismatchError
        ∧ IBTK.solveCoarsestLevel st e r ln
          = Except.error IBTK.depthMismatchError)
    ∧ ((IBTK.vectorFits st res = true ∧ IBTK.vectorFits st sol = true
        ∧ IBTK.vectorFits st rhs = true) →
      IBTK.computeResidual st res sol rhs lo hi
        = Except.ok (IBTK.computeResidualBody st res sol rhs lo hi))
    ∧ (¬(IBTK.vectorFits st res = true ∧ IBTK.vectorFits st sol = true
        ∧ IBTK.vectorFits st rhs = true) →
      IBTK.computeResidual st res sol rhs lo hi
        = Except.error IBTK.depthMismatchError) := by
  unfold IBTK.smoothError IBTK.solveCoarsestLevel IBTK.computeResidual
  refine ⟨?_, ?_, ?_, ?_⟩
  · rintro ⟨h1, h2⟩
    rw [h1, h2]
    exact ⟨rfl, rfl⟩
  · intro h
    have hb : (IBTK.vectorFits st e && IBTK.vectorFits st r) = false := by
      cases he : IBTK.vectorFits st e <;> cases hr : IBTK.vectorFits st r <;>
        simp_all
    rw [hb]
    exact ⟨rfl, rfl⟩
  · rintro ⟨h1, h2, h3⟩
    rw [h1, h2, h3]
    rfl
  · intro h
    have hb : (IBTK.vectorFits st res && IBTK.vectorFits st sol
        && IBTK.vectorFits st rhs) = false := by
      cases h1 : IBTK.vectorFits st res <;> cases h2 : IBTK.vectorFits st sol <;>
        cases h3 : IBTK.vectorFits st rhs <;> simp_all
    rw [hb]
    rfl

/-- Witness for C7 at concrete inputs: with matching depth and hierarchy all
three operations run their bodies, and with a depth-1 vector against a
depth-0 state smoothError and solveCoarsestLevel fail fatally. -/
theorem C7_vector_depth_precondition_witness :
    (IBTK.smoothError IBTK.constructorDefaults
        { depth := 0, hier_id := 0, data := fun _ _ => 1 }
        { depth := 0, hier_id := 0, data := fun _ _ => 2 } 0 1 true false
      = Except.ok (IBTK.smoothErrorBody IBTK.constructorDefaults
        { depth := 0, hier_id := 0, data := fun _ _ => 1 }
        { depth := 0, hier_id := 0, data := fun _ _ => 2 } 0 1)
      ∧ IBTK.solveCoarsestLevel IBTK.constructorDefaults
        { depth := 0, hier_id := 0, data := fun _ _ => 1 }
        { depth := 0, hier_id := 0, data := fun _ _ => 2 } 0
      = IBTK.solveCoarsestLevelBody IBTK.constructorDefaults
        { depth := 0, hier_id := 0, data := fun _ _ => 1 }
        { depth := 0, hier_id := 0, data := fun _ _ => 2 } 0)
    ∧ (IBTK.smoothError IBTK.constructorDefaults
        { depth := 1, hier_id := 0, data := fun _ _ => 1 }
        { depth := 0, hier_id := 0, data := fun _ _ => 2 } 0 1 true false
      = Except.error IBTK.depthMismatchError
      ∧ IBTK.solveCoarsestLevel IBTK.constructorDefaults
        { depth := 1, hier_id := 0, data := fun _ _ => 1 }
        { depth := 0, hier_id := 0, data := fun _ _ => 2 } 0
      = Except.error IBTK.depthMismatchError) :=
  ⟨(C7_vector_depth_precondition IBTK.constructorDefaults
      { depth := 0, hier_id := 0, data := fun _ _ => 1 }
      { depth := 0, hier_id := 0, data := fun _ _ => 2 }
      { depth := 0, hier_id := 0, data := fun _ _ => 0 }
      { depth := 0, hier_id := 0, data := fun _ _ => 0 }
      { depth := 0, hier_id := 0, data := fun _ _ => 0 }
      0 1 0 0 true false).1 ⟨rfl, rfl⟩,
   (C7_vector_depth_precondition IBTK.constructorDefaults
      { depth := 1, hier_id := 0, data := fun _ _ => 1 }
      { depth := 0, hier_id := 0, data := fun _ _ => 2 }
      { depth := 0, hier_id := 0, data := fun _ _ => 0 }
      { depth := 0, hier_id := 0, data := fun _ _ => 0 }
      { depth := 0, hier_id := 0, data := fun _ _ => 0 }
      0 1 0 0 true false).2.1 (by decide)⟩

/-- The backend convergence test holds exactly when some iterate within the
cap reaches the tolerance. -/
theorem backendConverges_iff_le (tol : Rat) (traj : Nat → Rat) (n : Nat) :
    IBTK.backendConverges tol traj n = true ↔
      ∃ k, k ≤ n ∧ traj k ≤ tol := by
  induction n with
  | zero =>
      simp only [IBTK.backendConverges, decide_eq_true_eq]
      constructor
      · intro h; exact ⟨0, Nat.le_refl 0, h⟩
      · rintro ⟨k, hk, h⟩
        have : k = 0 := Nat.le_zero.mp hk
        simpa [this] using h
  | succ n ih =>
      simp only [IBTK.backendConverges, Bool.or_eq_true, decide_eq_true_eq, ih]
      constructor
      · rintro (⟨k, hk, h⟩ | h)
        · exact ⟨k, Nat.le_succ_of_le hk, h⟩
        · exact ⟨n + 1, Nat.le_refl _, h⟩
      · rintro ⟨k, hk, h⟩
        rcases Nat.lt_or_ge k (n + 1) with hlt | hge
        · exact Or.inl ⟨k, Nat.lt_succ_iff.mp hlt, h⟩
        · have : k = n + 1 := Nat.le_antisymm hk hge
          exact Or.inr (this ▸ h)

/-- C2: with a delegated external backend (hypre or petsc) configured as the
coarse-level solver, solveCoarsestLevel returns normally (never fatally) and
its boolean result is true exactly when the backend's iteration reaches its
configured tolerance within its configured iteration cap. -/
theorem C2_solveCoarsestLevel_backend (st : IBTK.FACOperatorState)
    (e r : IBTK.SAMRAIVector) (ln : Nat) (b : IBTK.BackendSolver)
    (he : IBTK.vectorFits st e = true) (hr : IBTK.vectorFits st r = true)
    (hb : (st.d_using_hypre = true ∧ st.d_hypre_solver = some b)
        ∨ (st.d_using_hypre = false ∧ st.d_using_petsc = true
            ∧ st.d_petsc_solver = some b)) :
    ∃ conv st2 e2,
      IBTK.solveCoarsestLevel st e r ln = Except.ok (conv, st2, e2)
      ∧ (conv = true ↔ ∃ k, k ≤ b.maxIterations ∧ b.trajectory k ≤ b.tol) := by
  have hbody : IBTK.solveCoarsestLevel st e r ln
      = IBTK.solveCoarsestLevelBody st e r ln := by
    unfold IBTK.solveCoarsestLevel
    rw [he, hr]
    rfl
  rw [hbody]
  unfold IBTK.solveCoarsestLevelBody
  rcases hb with ⟨h1, h2⟩ | ⟨h1, h2, h3⟩
  · rw [h1, h2]
    exact ⟨_, st, _, rfl, backendConverges_iff_le b.tol b.trajectory b.maxIterations⟩
  · rw [h1, h2, h3]
    exact ⟨_, st, _, rfl, backendConverges_iff_le b.tol b.trajectory b.maxIterations⟩

/-- Witness for C2 at a concrete configuration: an initialized operator
switched to the hypre backend, whose modelled iteration converges at once,
returns success. -/
theorem C2_solveCoarsestLevel_backend_witness :
    ∃ conv st2 e2,
      IBTK.solveCoarsestLevel
          (IBTK.applyCoarseChoice
            (IBTK.initializeOperatorState IBTK.constructorDefaults
              { numLevels := 1, live := fun _ _ => true }
              { depth := 0, hier_id := 0, data := fun _ _ => 0 }
              { depth := 0, hier_id := 0, data := fun _ _ => 0 } 0 0)
            IBTK.CoarseSolverChoice.hypre)
          { depth := 0, hier_id := 0, data := fun _ _ => 1 }
          { depth := 0, hier_id := 0, data := fun _ _ => 2 } 0
        = Except.ok (conv, st2, e2)
      ∧ (conv = true ↔ ∃ k, k ≤ (10 : Nat)
          ∧ (fun _ : Nat => (0 : Rat)) k ≤ (1 : Rat) / 1000000) :=
  C2_solveCoarsestLevel_backend
    (IBTK.applyCoarseChoice
      (IBTK.initializeOperatorState IBTK.constructorDefaults
        { numLevels := 1, live := fun _ _ => true }
        { depth := 0, hier_id := 0, data := fun _ _ => 0 }
        { depth := 0, hier_id := 0, data := fun _ _ => 0 } 0 0)
      IBTK.CoarseSolverChoice.hypre)
    { depth := 0, hier_id := 0, data := fun _ _ => 1 }
    { depth := 0, hier_id := 0, data := fun _ _ => 2 } 0
    { tol := 1 / 1000000, maxIterations := 10
    , trajectory := fun _ => 0, result := fun _ => 0 }
    rfl rfl (Or.inl ⟨rfl, rfl⟩)

/-- Pointwise characterization of the level-by-level composite residual
loop: processing `n` levels starting at `lo` writes rhs - L solution at the
live, uncovered cells of those levels and leaves every other entry alone. -/
theorem computeResidualLevels_apply (H : IBTK.GridHierarchy)
    (spec : IBTK.PoissonSpecifications) (sol rhs : Nat → Int → Rat) (hi : Nat) :
    ∀ (n lo : Nat) (r : Nat → Int → Rat) (ln : Nat) (c : Int),
      IBTK.computeResidualLevels H spec sol rhs hi lo n r ln c =
        if lo ≤ ln ∧ ln < lo + n ∧ H.live ln c = true
            ∧ ¬ IBTK.coveredByFiner H hi ln c then
          rhs ln c - IBTK.applyL spec (sol ln) c
        else r ln c := by
  intro n
  induction n with
  | zero =>
      intro lo r ln c
      simp only [IBTK.computeResidualLevels]
      rw [if_neg]
      rintro ⟨h1, h2, -⟩
      omega
  | succ n ih =>
      intro lo r ln c
      simp only [IBTK.computeResidualLevels]
      rw [ih]
      by_cases hln : ln = lo
      · subst hln
        rw [if_neg (by rintro ⟨h1, -⟩; omega)]
        simp only [IBTK.updLevel, if_true]
        by_cases hc : H.live ln c = true ∧ ¬ IBTK.coveredByFiner H hi ln c
        · rw [if_pos hc, if_pos ⟨Nat.le_refl ln, by omega, hc.1, hc.2⟩]
        · rw [if_neg hc, if_neg (by rintro ⟨-, -, hc1, hc2⟩; exact hc ⟨hc1, hc2⟩)]
      · simp only [IBTK.updLevel]
        rw [if_neg hln]
        by_cases hP : H.live ln c = true ∧ ¬ IBTK.coveredByFiner H hi ln c
        · by_cases hin : lo + 1 ≤ ln ∧ ln < lo + 1 + n
          · rw [if_pos ⟨hin.1, hin.2, hP.1, hP.2⟩,
                if_pos ⟨by omega, by omega, hP.1, hP.2⟩]
          · rw [if_neg (by rintro ⟨ha, hb, -⟩; exact hin ⟨ha, hb⟩),
                if_neg (by rintro ⟨ha, hb, -⟩; exact hin ⟨by omega, by omega⟩)]
        · rw [if_neg (by rintro ⟨-, -, hc1, hc2⟩; exact hP ⟨hc1, hc2⟩),
              if_neg (by rintro ⟨-, -, hc1, hc2⟩; exact hP ⟨hc1, hc2⟩)]

/-- C1: under the vector preconditions, computeResidual succeeds, leaves the
operator state alone, and writes residual = rhs - L solution over the level
range treated as one composite mesh: on every live cell of a level in the
range that is not covered by a finer level of the range the residual equals
rhs - L solution there, while on every coarse cell covered by a finer patch
the coarse computation is excluded (the entry is untouched), so the finer
level's value dominates the composite result. -/
theorem C1_computeResidual_composite (st : IBTK.FACOperatorState)
    (residual solution rhs : IBTK.SAMRAIVector) (lo hi : Nat)
    (hres : IBTK.vectorFits st residual = true)
    (hsol : IBTK.vectorFits st solution = true)
    (hrhs : IBTK.vectorFits st rhs = true)
    (hrange : lo ≤ hi) :
    ∃ st2 res2,
      IBTK.computeResidual st residual solution rhs lo hi
        = Except.ok (st2, res2)
      ∧ st2 = st
      ∧ ∀ (ln : Nat) (c : Int), lo ≤ ln → ln ≤ hi →
          st.d_hierarchy.live ln c = true →
          (¬ IBTK.coveredByFiner st.d_hierarchy hi ln c →
            res2.data ln c
              = rhs.data ln c
                - IBTK.applyL st.d_poisson_spec (solution.data ln) c)
          ∧ (IBTK.coveredByFiner st.d_hierarchy hi ln c →
            res2.data ln c = residual.data ln c) := by
  refine ⟨st, (IBTK.computeResidualBody st residual solution rhs lo hi).2,
    ?_, rfl, ?_⟩
  · unfold IBTK.computeResidual
    rw [hres, hsol, hrhs]
    rfl
  · intro ln c h1 h2 hlive
    constructor
    · intro hnc
      show IBTK.computeResidualData st.d_hierarchy st.d_poisson_spec
          residual.data solution.data rhs.data lo hi ln c = _
      unfold IBTK.computeResidualData
      rw [computeResidualLevels_apply]
      rw [if_pos ⟨h1, by omega, hlive, hnc⟩]
    · intro hcov
      show IBTK.computeResidualData st.d_hierarchy st.d_poisson_spec
          residual.data solution.data rhs.data lo hi ln c = _
      unfold IBTK.computeResidualData
      rw [computeResidualLevels_apply]
      rw [if_neg (by rintro ⟨-, -, -, hn⟩; exact hn hcov)]

/-- Witness for C1 at a concrete two-level problem: level 1 is live only at
cell 0, so cell 0 of level 0 is covered and every other level-0 cell is a
composite cell. -/
theorem C1_computeResidual_composite_witness :
    ∃ st2 res2,
      IBTK.computeResidual
          (IBTK.initializeOperatorState IBTK.constructorDefaults
            { numLevels := 2
            , live := fun ln c => decide (ln = 0) || decide (c = 0) }
            { depth := 0, hier_id := 0, data := fun _ _ => 0 }
            { depth := 0, hier_id := 0, data := fun _ _ => 0 } 0 1)
          { depth := 0, hier_id := 0, data := fun _ _ => 7 }
          { depth := 0, hier_id := 0, data := fun _ _ => 1 }
          { depth := 0, hier_id := 0, data := fun _ _ => 2 } 0 1
        = Except.ok (st2, res2)
      ∧ st2 = IBTK.initializeOperatorState IBTK.constructorDefaults
          { numLevels := 2
          , live := fun ln c => decide (ln = 0) || decide (c = 0) }
          { depth := 0, hier_id := 0, data := fun _ _ => 0 }
          { depth := 0, hier_id := 0, data := fun _ _ => 0 } 0 1
      ∧ ∀ (ln : Nat) (c : Int), 0 ≤ ln → ln ≤ 1 →
          (IBTK.initializeOperatorState IBTK.constructorDefaults
            { numLevels := 2
            , live := fun ln c => decide (ln = 0) || decide (c = 0) }
            { depth := 0, hier_id := 0, data := fun _ _ => 0 }
            { depth := 0, hier_id := 0, data := fun _ _ => 0 } 0 1).d_hierarchy.live
            ln c = true →
          (¬ IBTK.coveredByFiner
              (IBTK.initializeOperatorState IBTK.constructorDefaults
                { numLevels := 2
                , live := fun ln c => decide (ln = 0) || decide (c = 0) }
                { depth := 0, hier_id := 0, data := fun _ _ => 0 }
                { depth := 0, hier_id := 0, data := fun _ _ => 0 } 0 1).d_hierarchy
              1 ln c →
            res2.data ln c
              = (fun _ _ => (2 : Rat)) ln c
                - IBTK.applyL
                  (IBTK.initializeOperatorState IBTK.constructorDefaults
                    { numLevels := 2
                    , live := fun ln c => decide (ln = 0) || decide (c = 0) }
                    { depth := 0, hier_id := 0, data := fun _ _ => 0 }
                    { depth := 0, hier_id := 0, data := fun _ _ => 0 } 0 1).d_poisson_spec
                  ((fun _ _ => (1 : Rat)) ln) c)
          ∧ (IBTK.coveredByFiner
              (IBTK.initializeOperatorState IBTK.constructorDefaults
                { numLevels := 2
                , live := fun ln c => decide (ln = 0) || decide (c = 0) }
                { depth := 0, hier_id := 0, data := fun _ _ => 0 }
                { depth := 0, hier_id := 0, data := fun _ _ => 0 } 0 1).d_hierarchy
              1 ln c →
            res2.data ln c = (fun _ _ => (7 : Rat)) ln c) :=
  C1_computeResidual_composite
    (IBTK.initializeOperatorState IBTK.constructorDefaults
      { numLevels := 2
      , live := fun ln c => decide (ln = 0) || decide (c = 0) }
      { depth := 0, hier_id := 0, data := fun _ _ => 0 }
      { depth := 0, hier_id := 0, data := fun _ _ => 0 } 0 1)
    { depth := 0, hier_id := 0, data := fun _ _ => 7 }
    { depth := 0, hier_id := 0, data := fun _ _ => 1 }
    { depth := 0, hier_id := 0, data := fun _ _ => 2 } 0 1
    rfl rfl rfl (by decide)

/-- Changing the coarse-solver choice reconstructs the bottom-solver handle
atomically, so the exactly-one invariant holds afterwards. -/
theorem applyCoarseChoice_invariant (s : IBTK.FACOperatorState)
    (choice : IBTK.CoarseSolverChoice) :
    IBTK.bottomSolverInvariant (IBTK.applyCoarseChoice s choice) := by
  cases choice <;> by_cases hinit : s.is_initialized = true <;>
    simp [IBTK.bottomSolverInvariant, IBTK.applyCoarseChoice,
      IBTK.liveBottomVariant, IBTK.mkBackendSolver, hinit]

/-- Initialization instantiates the bottom solver selected by the current
flags, preserving the exactly-one invariant. -/
theorem initializeOperatorState_invariant (s : IBTK.FACOperatorState)
    (hier : IBTK.GridHierarchy) (sol rhs : IBTK.SAMRAIVector) (lo hi : Nat)
    (ih : IBTK.bottomSolverInvariant s) :
    IBTK.bottomSolverInvariant
      (IBTK.initializeOperatorState s hier sol rhs lo hi) := by
  obtain ⟨i1, i2, i3, i4, i5, i6, i7⟩ := ih
  refine ⟨i1, i2, i3, i4, ?_, ?_, ?_⟩
  · intro b hb
    by_cases hflag : s.d_using_hypre = true
    · exact ⟨hflag, rfl⟩
    · exfalso
      have hb2 : (if s.d_using_hypre = true then some (IBTK.mkBackendSolver s)
          else none) = some b := hb
      rw [if_neg hflag] at hb2
      exact Option.noConfusion hb2
  · intro b hb
    by_cases hflag : s.d_using_petsc = true
    · exact ⟨hflag, rfl⟩
    · exfalso
      have hb2 : (if s.d_using_petsc = true then some (IBTK.mkBackendSolver s)
          else none) = some b := hb
      rw [if_neg hflag] at hb2
      exact Option.noConfusion hb2
  · rintro ⟨hh, hp⟩
    by_cases f1 : s.d_using_hypre = true
    · by_cases f2 : s.d_using_petsc = true
      · exact i3 ⟨f1, f2⟩
      · apply hp
        show (if s.d_using_petsc = true then some (IBTK.mkBackendSolver s)
          else none) = none
        rw [if_neg f2]
    · apply hh
      show (if s.d_using_hypre = true then some (IBTK.mkBackendSolver s)
        else none) = none
      rw [if_neg f1]

/-- Deallocation destroys the backend instances, preserving the exactly-one
invariant. -/
theorem deallocateOperatorState_invariant (s : IBTK.FACOperatorState)
    (ih : IBTK.bottomSolverInvariant s) :
    IBTK.bottomSolverInvariant (IBTK.deallocateOperatorState s) := by
  obtain ⟨i1, i2, i3, i4, i5, i6, i7⟩ := ih
  unfold IBTK.deallocateOperatorState
  by_cases hinit : s.is_initialized = true
  · rw [if_pos hinit]
    exact ⟨i1, i2, i3, i4,
      fun b hb => Option.noConfusion hb,
      fun b hb => Option.noConfusion hb,
      fun h => h.1 rfl⟩
  · rw [if_neg hinit]
    exact ⟨i1, i2, i3, i4, i5, i6, i7⟩

/-- C8: in every reachable operator state exactly one bottom-solver variant
is live, the live variant is the one named by the current coarse-solver
choice, backend instances exist only for the selected backend of an
initialized operator, and in particular the hypre and petsc instances are
never both live; every configuration change and re-initialization preserves
this. -/
theorem C8_bottom_solver_exactly_one (s : IBTK.FACOperatorState)
    (h : IBTK.Reachable s) : IBTK.bottomSolverInvariant s := by
  induction h with
  | construct =>
      refine ⟨?_, ?_, ?_, ?_, ?_, ?_, ?_⟩ <;>
        simp [IBTK.constructorDefaults, IBTK.liveBottomVariant]
  | setSpec spec hr ih => exact ih
  | setBc bc hr ih => exact ih
  | setSmoother str hr heq ih =>
      unfold IBTK.setSmootherChoice at heq
      split_ifs at heq
      · injection heq with h2
        rw [← h2]
        exact ih
      · injection heq with h2
        rw [← h2]
        exact ih
  | setCoarse str hr heq ih =>
      unfold IBTK.setCoarsestLevelSolverChoice at heq
      split_ifs at heq
      · injection heq with h2
        rw [← h2]
        exact applyCoarseChoice_invariant _ _
      · injection heq with h2
        rw [← h2]
        exact applyCoarseChoice_invariant _ _
      · injection heq with h2
        rw [← h2]
        exact applyCoarseChoice_invariant _ _
  | init hier sol rhs lo hi hr ih =>
      exact initializeOperatorState_invariant _ hier sol rhs lo hi ih
  | dealloc hr ih =>
      exact deallocateOperatorState_invariant _ ih

/-- Witness for C8 at a concrete reachable state: a freshly constructed
operator that is initialized and then switched to the petsc backend. -/
theorem C8_bottom_solver_exactly_one_witness :
    IBTK.bottomSolverInvariant
      (IBTK.applyCoarseChoice
        (IBTK.initializeOperatorState IBTK.constructorDefaults
          { numLevels := 1, live := fun _ _ => true }
          { depth := 0, hier_id := 0, data := fun _ _ => 0 }
          { depth := 0, hier_id := 0, data := fun _ _ => 0 } 0 0)
        IBTK.CoarseSolverChoice.petsc) :=
  C8_bottom_solver_exactly_one _
    (IBTK.Reachable.setCoarse "petsc"
      (IBTK.Reachable.init
        { numLevels := 1, live := fun _ _ => true }
        { depth := 0, hier_id := 0, data := fun _ _ => 0 }
        { depth := 0, hier_id := 0, data := fun _ _ => 0 } 0 0
        IBTK.Reachable.construct)
      rfl)

/-- When x and y are distinct buffers, the cell loop of the convective
operator never changes buffer x. -/
theorem applyLoop_other (x y : Nat) (hxy : x ≠ y) :
    ∀ (cells : List Int) (m : Nat → Int → Rat) (c2 : Int),
      IBAMR.applyLoop x y cells m x c2 = m x c2 := by
  intro cells
  induction cells with
  | nil => intro m c2; rfl
  | cons c cs ih =>
      intro m c2
      show IBAMR.applyLoop x y cs
        (IBAMR.writeCell m y c (IBAMR.convect (m x) c)) x c2 = m x c2
      rw [ih]
      unfold IBAMR.writeCell
      rw [if_neg]
      rintro ⟨h1, -⟩
      exact hxy h1

/-- The cell loop leaves a cell of the output buffer alone when that cell is
not in the visited list. -/
theorem applyLoop_untouched (x y : Nat) :
    ∀ (cells : List Int) (m : Nat → Int → Rat) (c : Int), c ∉ cells →
      IBAMR.applyLoop x y cells m y c = m y c := by
  intro cells
  induction cells with
  | nil => intro m c _; rfl
  | cons d ds ih =>
      intro m c h
      have hd : c ≠ d := fun hcon => h (hcon ▸ List.mem_cons_self d ds)
      show IBAMR.applyLoop x y ds
        (IBAMR.writeCell m y d (IBAMR.convect (m x) d)) y c = m y c
      rw [ih _ c (fun hc => h (List.mem_cons_of_mem d hc))]
      unfold IBAMR.writeCell
      rw [if_neg (by rintro ⟨-, h2⟩; exact hd h2)]

/-- When x and y are distinct buffers, the cell loop writes exactly the
convective differencing of the original input into every visited cell. -/
theorem applyLoop_correct (x y : Nat) (hxy : x ≠ y) :
    ∀ (cells : List Int), cells.Nodup →
      ∀ (m : Nat → Int → Rat) (c : Int), c ∈ cells →
        IBAMR.applyLoop x y cells m y c = IBAMR.convect (m x) c := by
  intro cells
  induction cells with
  | nil => intro _ m c hc; cases hc
  | cons d ds ih =>
      intro hnd m c hc
      have hnd2 : ds.Nodup := (List.nodup_cons.mp hnd).2
      have hdns : d ∉ ds := (List.nodup_cons.mp hnd).1
      show IBAMR.applyLoop x y ds
        (IBAMR.writeCell m y d (IBAMR.convect (m x) d)) y c = _
      rcases List.mem_cons.mp hc with hcd | hcs
      · subst hcd
        rw [applyLoop_untouched x y ds _ c hdns]
        unfold IBAMR.writeCell
        rw [if_pos ⟨rfl, rfl⟩]
      · rw [ih hnd2 _ c hcs]
        have hx : ∀ c2, IBAMR.writeCell m y d (IBAMR.convect (m x) d) x c2
            = m x c2 := by
          intro c2
          unfold IBAMR.writeCell
          rw [if_neg (by rintro ⟨h1, -⟩; exact hxy h1)]
        rw [funext hx]

/-- C9: apply demands vectors of the same hierarchy, structure and depth
(otherwise it fails), and requires the input and output vectors to be
distinct: on distinct buffers it computes y = F[x] of the original input and
leaves x unchanged, while on an aliased vector the in-place cell loop can
produce a value different from F[x], so apply is not specified there. -/
theorem C9_apply_distinct_vectors :
    (∀ (info : Nat → IBAMR.VectorTemplate) (m : Nat → Int → Rat)
        (x y : Nat) (cells : List Int),
      (∃ m2, IBAMR.applyConvectiveOperator info m x y cells = Except.ok m2)
        ↔ info x = info y)
    ∧ (∀ (m : Nat → Int → Rat) (x y : Nat) (cells : List Int),
        x ≠ y → cells.Nodup →
        (∀ c ∈ cells,
          IBAMR.applyLoop x y cells m y c = IBAMR.convect (m x) c)
        ∧ (∀ c2, IBAMR.applyLoop x y cells m x c2 = m x c2))
    ∧ (∃ (m : Nat → Int → Rat) (x : Nat) (cells : List Int) (c : Int),
        c ∈ cells
        ∧ IBAMR.applyLoop x x cells m x c ≠ IBAMR.convect (m x) c) := by
  refine ⟨?_, ?_, ?_⟩
  · intro info m x y cells
    unfold IBAMR.applyConvectiveOperator
    by_cases h : info x = info y
    · rw [if_pos h]
      simp [h]
    · rw [if_neg h]
      simp [h]
  · intro m x y cells hxy hnd
    exact ⟨fun c hc => applyLoop_correct x y hxy cells hnd m c hc,
           fun c2 => applyLoop_other x y hxy cells m c2⟩
  · refine ⟨fun _ _ => 1, 0, [0, 1], 1, by decide, ?_⟩
    norm_num [IBAMR.applyLoop, IBAMR.writeCell, IBAMR.convect]

/-- Witness for C9 at concrete inputs: applying the loop from buffer 0 into
the distinct buffer 1 over the single cell 0 yields the specified
convective value there. -/
theorem C9_apply_distinct_vectors_witness :
    IBAMR.applyLoop 0 1 [0] (fun _ _ => (1 : Rat)) 1 0
      = IBAMR.convect ((fun _ _ => (1 : Rat)) 0) 0 :=
  (C9_apply_distinct_vectors.2.1 (fun _ _ => (1 : Rat)) 0 1 [0]
      (by decide) (by decide)).1 0 (by decide)

